import Mathlib

/-!
Shallow embedding of the slot-allocation engine of the Warehouse2 repository
(`src/lib/warehouse-logic.ts`, re-exported through `src/lib/firebase.ts`):
the `LEVEL_MAX_WEIGHTS` table, `getLevelId`, `getLevelWeight`,
`canAcceptWeight`, `calculateDistanceScore`, `calculateWeightScore` and
`findOptimalLocation`, together with theorems checking the specification's
claims about them.

JS numbers are embedded as rationals; a possibly-NaN number is `Option ℚ`
with `none` standing for NaN (the only NaN sources on these code paths are
an absent `LEVEL_MAX_WEIGHTS` entry, a non-numeric `bay` and an empty `row`).
All arithmetic the claims exercise is exact in IEEE doubles at the inputs
used, so the rational embedding agrees with the JS evaluation there.
-/

namespace Warehouse

/-- The `Location` record, from `src/types/warehouse.ts`.  `maxWeight` and
`currentWeight` are `Option ℚ` because Firestore documents may lack the
fields (the engine reads `currentWeight || 0`; `maxWeight` is never read by
the engine).  An `available`/`verified` field that is `undefined` in the
data behaves exactly like `false` in the engine's boolean tests, so `Bool`
is faithful. -/
structure Location where
  id : String
  code : String
  row : String
  bay : String
  level : String
  location : String
  maxWeight : Option ℚ
  currentWeight : Option ℚ
  available : Bool
  verified : Bool
deriving DecidableEq, Repr

/-- The static tier-capacity table `LEVEL_MAX_WEIGHTS` (warehouse-logic.ts
lines 4-10), as the property lookup `LEVEL_MAX_WEIGHTS[level]`: `none`
models a key absent from the JS object (`undefined`). -/
def LEVEL_MAX_WEIGHTS (level : String) : Option ℚ :=
  if level = "0" then some 2000
  else if level = "1" then some 1500
  else if level = "2" then some 1000
  else if level = "3" then some 750
  else if level = "4" then some 500
  else none

/-- Function `getLevelId` (warehouse-logic.ts line 12): the template literal
`` `${row}${bay}-${level}` ``.  `findOptimalLocation` rebuilds the same
string inline as its `levelKey`; both are this function. -/
def getLevelId (loc : Location) : String :=
  loc.row ++ loc.bay ++ "-" ++ loc.level

/-- Function `getLevelWeight` (warehouse-logic.ts line 16): a left fold of
`total + (loc.currentWeight || 0)` over the list, starting from `0`.
`Option.getD 0` is the `|| 0` default (note `0 || 0` is also `0`). -/
def getLevelWeight (locations : List Location) : ℚ :=
  locations.foldl (fun total loc => total + loc.currentWeight.getD 0) 0

/-- Function `canAcceptWeight` (warehouse-logic.ts lines 20-37).  When
`LEVEL_MAX_WEIGHTS[location.level]` is `undefined`, the JS guard
`newLevelWeight > undefined` compares against NaN and is `false`, so the
function falls through and returns `true`. -/
def canAcceptWeight (location : Location) (weight : ℚ)
    (levelLocations : List Location) : Bool :=
  if !location.available || !location.verified then false
  else
    let newLevelWeight := getLevelWeight levelLocations + weight
    match LEVEL_MAX_WEIGHTS location.level with
    | some levelMaxWeight =>
      if newLevelWeight > levelMaxWeight then false else true
    | none => true

/-- Decimal-digit accumulator over a character list: `some` of the value
when every character is a digit `'0'`-`'9'`, `none` otherwise. -/
def parseDigits : List Char → ℕ → Option ℕ
  | [], acc => some acc
  | c :: cs, acc =>
    if '0' ≤ c ∧ c ≤ '9' then parseDigits cs (10 * acc + (c.toNat - 48))
    else none

/-- JS `parseInt`, restricted to plain decimal-digit strings: `some` of the
value on a nonempty all-digit string, `none` (NaN) otherwise.  (`parseInt`
also tolerates signs, whitespace and trailing garbage; every `bay` and
`level` the engine sees is a plain digit string such as "01", where the
two agree.) -/
def parseIntQ (s : String) : Option ℚ :=
  if s.data = [] then none
  else (parseDigits s.data 0).map fun n => (n : ℚ)

/-- JS `row.charCodeAt(0)`: the first UTF-16 unit, or NaN on the empty
string.  For the basic-plane characters used in row names this is the code
point. -/
def charCodeAt0 (s : String) : Option ℚ :=
  s.data.head?.map fun c => (c.toNat : ℚ)

/-- Function `calculateDistanceScore` (warehouse-logic.ts lines 40-44):
`(row.charCodeAt(0) - 'A'.charCodeAt(0)) * 100 + (parseInt(bay) - 1)`,
NaN when the row is empty or the bay is not numeric. -/
def calculateDistanceScore (row : String) (bay : String) : Option ℚ :=
  match charCodeAt0 row, parseIntQ bay with
  | some r, some b => some ((r - 65) * 100 + (b - 1))
  | _, _ => none

/-- The value `Number.MAX_SAFE_INTEGER`, the "infinite penalty" sentinel. -/
def maxSafeInteger : ℚ := 9007199254740991

/-- Function `calculateWeightScore` (warehouse-logic.ts lines 47-71).  When the tier
has no `LEVEL_MAX_WEIGHTS` entry the JS over-limit guard is `false` (NaN
comparison) but `Math.abs(undefined - newLevelWeight)` and
`newLevelWeight / undefined` are NaN, so the returned sum is NaN: `none`.
For configured tiers `parseInt(level)` is the digit value, which
`(parseIntQ level).getD 0` computes. -/
def calculateWeightScore (weight : ℚ) (level : String)
    (levelLocations : List Location) : Option ℚ :=
  match LEVEL_MAX_WEIGHTS level with
  | none => none
  | some levelMaxWeight =>
    let levelNum := (parseIntQ level).getD 0
    let newLevelWeight := getLevelWeight levelLocations + weight
    if newLevelWeight > levelMaxWeight then some maxSafeInteger
    else
      some (weight * levelNum * 2 + |levelMaxWeight - newLevelWeight|
        + newLevelWeight / levelMaxWeight * 1000)

/-- The `{ location, score }` pair built inside `findOptimalLocation`. -/
structure Scored where
  location : Location
  score : Option ℚ
deriving DecidableEq, Repr

/-- Test "the comparator `(a, b) => a.score - b.score` is positive",
driving the JS sort.  A NaN difference is neither positive nor negative,
so both `none` cases give `false`. -/
def scoreGT (a b : Option ℚ) : Bool :=
  match a, b with
  | some x, some y => if y < x then true else false
  | _, _ => false

/-- One insertion step of a stable ascending sort: `x` is placed before the
first element it does not compare strictly greater than. -/
def insertScored (x : Scored) : List Scored → List Scored
  | [] => [x]
  | y :: ys => if scoreGT x.score y.score then y :: insertScored x ys
               else x :: y :: ys

/-- The call `Array.prototype.sort((a, b) => a.score - b.score)`: a stable ascending
sort (ES2019 requires sort stability; on score ties the original order is
kept).  Elements are inserted back-to-front, so an earlier element is
inserted later and lands before the elements tied with it. -/
def sortScored : List Scored → List Scored
  | [] => []
  | x :: xs => insertScored x (sortScored xs)

/-- The entry `levelGroups[levelKey(loc)]` of `findOptimalLocation`: the JS `reduce`
collects, for each key, exactly the sublist of `availableLocations` with
that key, in input order, which is this filter. -/
def levelGroup (availableLocations : List Location) (loc : Location) :
    List Location :=
  availableLocations.filter fun l => getLevelId l == getLevelId loc

/-- The total `distanceScore + weightScore` attached to a candidate, NaN
(`none`) when either part is. -/
def totalScore (availableLocations : List Location) (weight : ℚ)
    (loc : Location) : Option ℚ :=
  match calculateDistanceScore loc.row loc.bay,
        calculateWeightScore weight loc.level
          (levelGroup availableLocations loc) with
  | some d, some w => some (d + w)
  | _, _ => none

/-- The list `availableLocations` of `findOptimalLocation` (line 75): the input
filtered to `loc.available && loc.verified`. -/
def availableOf (locations : List Location) : List Location :=
  locations.filter fun loc => loc.available && loc.verified

/-- The list `validLocations` (lines 92-96) as a function of the pre-filtered list:
the candidates accepted by `canAcceptWeight` against their level group. -/
def validFrom (avail : List Location) (weight : ℚ) : List Location :=
  avail.filter fun loc => canAcceptWeight loc weight (levelGroup avail loc)

def validOf (locations : List Location) (weight : ℚ) : List Location :=
  validFrom (availableOf locations) weight

/-- The list `scoredLocations` (lines 103-113): each valid candidate paired with its
score, then the entries whose score `!== Number.MAX_SAFE_INTEGER` (a NaN
score is `!==` the sentinel and is kept, as in JS). -/
def scoredFrom (avail : List Location) (weight : ℚ) : List Scored :=
  ((validFrom avail weight).map
      fun loc => Scored.mk loc (totalScore avail weight loc)).filter
    fun s => if s.score = some maxSafeInteger then false else true

def scoredOf (locations : List Location) (weight : ℚ) : List Scored :=
  scoredFrom (availableOf locations) weight

/-- Function `findOptimalLocation` (warehouse-logic.ts lines 73-122): the three
early `return null`s on empty lists, then the head of the sorted scored
list. -/
def findOptimalLocation (locations : List Location) (weight : ℚ) :
    Option Location :=
  if (availableOf locations).isEmpty then none
  else if (validOf locations weight).isEmpty then none
  else if (scoredOf locations weight).isEmpty then none
  else ((sortScored (scoredOf locations weight)).head?).map Scored.location

/-- Modelled from the spec: the scorer of §9's "Open question", identical to
`calculateWeightScore` but with the infinite-penalty branch removed — the
scorer treated "as a total function over already-eligible candidates". -/
def calculateWeightScoreSimple (weight : ℚ) (level : String)
    (levelLocations : List Location) : Option ℚ :=
  match LEVEL_MAX_WEIGHTS level with
  | none => none
  | some levelMaxWeight =>
    let levelNum := (parseIntQ level).getD 0
    let newLevelWeight := getLevelWeight levelLocations + weight
    some (weight * levelNum * 2 + |levelMaxWeight - newLevelWeight|
      + newLevelWeight / levelMaxWeight * 1000)

def totalScoreSimple (availableLocations : List Location) (weight : ℚ)
    (loc : Location) : Option ℚ :=
  match calculateDistanceScore loc.row loc.bay,
        calculateWeightScoreSimple weight loc.level
          (levelGroup availableLocations loc) with
  | some d, some w => some (d + w)
  | _, _ => none

def scoredSimpleFrom (avail : List Location) (weight : ℚ) : List Scored :=
  (validFrom avail weight).map
    fun loc => Scored.mk loc (totalScoreSimple avail weight loc)

/-- Modelled from the spec: the simplified engine of §9's "Open question" —
it "relies solely on the eligibility filter", omitting the sentinel branch
of the scorer and the post-scoring sentinel filter. -/
def findOptimalLocationSimple (locations : List Location) (weight : ℚ) :
    Option Location :=
  if (availableOf locations).isEmpty then none
  else if (validOf locations weight).isEmpty then none
  else ((sortScored (scoredSimpleFrom (availableOf locations) weight)).head?).map
    Scored.location

/-- The spec's §3 data model for a location: a nonempty `row`, a numeric
`bay` and a `level` drawn from the configured tier set. -/
def wellFormed (loc : Location) : Bool :=
  (charCodeAt0 loc.row).isSome && (parseIntQ loc.bay).isSome
    && (LEVEL_MAX_WEIGHTS loc.level).isSome

/-! Concrete locations used to instantiate the claims. -/

/-- Empty, available, verified slot on tier 0 of bay A01. -/
def locA0 : Location :=
  ⟨"L0", "A01-0", "A", "01", "0", "A01-0", some 2000, some 0, true, true⟩

/-- Empty, available, verified slot on tier 1 of bay A01. -/
def locA1 : Location :=
  ⟨"L1", "A01-1", "A", "01", "1", "A01-1", some 1500, some 0, true, true⟩

/-- A slot whose `level` "9" has no entry in `LEVEL_MAX_WEIGHTS`. -/
def loc9 : Location :=
  ⟨"L9", "A01-9", "A", "01", "9", "A01-9", none, some 0, true, true⟩

/-- Tier-0 slot whose level already holds 1800 kg. -/
def loc1800 : Location :=
  ⟨"L18", "A01-0", "A", "01", "0", "A01-0", some 2000, some 1800, true, true⟩

/-- Tier-0 slot whose level aggregate sits exactly at the 2000 kg cap. -/
def locAtCap : Location :=
  ⟨"LC", "A01-0", "A", "01", "0", "A01-0", some 2000, some 2000, true, true⟩

/-- An unavailable slot holding weight on the same level as `locA0`. -/
def locUnavail : Location :=
  ⟨"LU", "A01-0", "A", "01", "0", "A01-0", some 2000, some 1999, false, true⟩

/-- A slot with no `currentWeight` field in its document. -/
def locNoCw : Location :=
  ⟨"LN", "A01-0", "A", "01", "0", "A01-0", some 2000, none, true, true⟩

/-- Eligible tier-0 slot whose huge numeric `bay` drives the total score to
exactly `Number.MAX_SAFE_INTEGER` at `weight = 1000`: the distance score is
9007199254739491 and the weight score is 1500. -/
def locBig : Location :=
  ⟨"LB", "big", "A", "9007199254739492", "0", "big", some 2000, some 0,
    true, true⟩

/-- Like `locBig` but five bays further, total score 9007199254740996. -/
def locBig2 : Location :=
  ⟨"LB2", "big2", "A", "9007199254739497", "0", "big2", some 2000, some 0,
    true, true⟩

/-- A second slot at the same coordinates as `locBig` (distinct id): both
score exactly the sentinel, so the pair ties. -/
def locBigB : Location :=
  ⟨"LBB", "bigB", "A", "9007199254739492", "0", "big", some 2000, some 0,
    true, true⟩

/-- Two slots on the same level of bay A01, distinct ids, identical
coordinates: their scores tie. -/
def locT1 : Location :=
  ⟨"T1", "A01-0-a", "A", "01", "0", "A01-0", some 2000, some 0, true, true⟩

def locT2 : Location :=
  ⟨"T2", "A01-0-b", "A", "01", "0", "A01-0", some 2000, some 0, true, true⟩

/-! Supporting lemmas. -/

lemma charA_toNat : ('A' : Char).toNat = 65 := rfl
lemma char0_toNat : ('0' : Char).toNat = 48 := rfl
lemma char1_toNat : ('1' : Char).toNat = 49 := rfl
lemma char9_toNat : ('9' : Char).toNat = 57 := rfl

lemma getLevelWeight_aux (l : List Location) (init : ℚ) :
    l.foldl (fun t loc => t + loc.currentWeight.getD 0) init
      = init + getLevelWeight l := by
  induction l generalizing init with
  | nil => simp [getLevelWeight]
  | cons x xs ih =>
    simp only [getLevelWeight, List.foldl_cons] at ih ⊢
    rw [ih, ih (0 + x.currentWeight.getD 0)]
    ring

lemma getLevelWeight_nil : getLevelWeight [] = 0 := rfl

lemma getLevelWeight_cons (x : Location) (l : List Location) :
    getLevelWeight (x :: l) = x.currentWeight.getD 0 + getLevelWeight l := by
  calc getLevelWeight (x :: l)
      = l.foldl (fun t loc => t + loc.currentWeight.getD 0)
          (0 + x.currentWeight.getD 0) := rfl
    _ = (0 + x.currentWeight.getD 0) + getLevelWeight l :=
        getLevelWeight_aux l _
    _ = x.currentWeight.getD 0 + getLevelWeight l := by ring

lemma getLevelWeight_append (l₁ l₂ : List Location) :
    getLevelWeight (l₁ ++ l₂) = getLevelWeight l₁ + getLevelWeight l₂ := by
  induction l₁ with
  | nil => simp [getLevelWeight_nil, getLevelWeight]
  | cons x xs ih => simp only [List.cons_append, getLevelWeight_cons, ih]; ring

lemma getLevelWeight_nonneg (l : List Location)
    (h : ∀ loc ∈ l, ∀ q, loc.currentWeight = some q → 0 ≤ q) :
    0 ≤ getLevelWeight l := by
  induction l with
  | nil => simp [getLevelWeight_nil]
  | cons x xs ih =>
    rw [getLevelWeight_cons]
    have hx : 0 ≤ x.currentWeight.getD 0 := by
      cases hcw : x.currentWeight with
      | none => simp
      | some q => simpa using h x (by simp) q hcw
    have hxs : 0 ≤ getLevelWeight xs := ih fun loc hl => h loc (by simp [hl])
    linarith

lemma scoreGT_some_iff {x y : ℚ} : scoreGT (some x) (some y) = true ↔ y < x := by
  simp [scoreGT]

lemma scoreGT_irrefl (a : Option ℚ) : scoreGT a a = false := by
  cases a with
  | none => rfl
  | some x => simp [scoreGT]

lemma scoreGT_isSome_left {a b : Option ℚ} (h : scoreGT a b = true) :
    a.isSome = true ∧ b.isSome = true := by
  cases a <;> cases b <;> simp_all [scoreGT]

lemma scoreGT_asymm {a b : Option ℚ} (h : scoreGT a b = true) :
    scoreGT b a = false := by
  cases a with
  | none => simp [scoreGT] at h
  | some x =>
    cases b with
    | none => simp [scoreGT] at h
    | some y =>
      rw [scoreGT_some_iff] at h
      simp [scoreGT, not_lt.mpr h.le]

lemma scoreGT_false_trans {a b c : Option ℚ}
    (ha : a.isSome = true) (hb : b.isSome = true) (hc : c.isSome = true)
    (hab : scoreGT a b = false) (hbc : scoreGT b c = false) :
    scoreGT a c = false := by
  obtain ⟨x, rfl⟩ := Option.isSome_iff_exists.mp ha
  obtain ⟨y, rfl⟩ := Option.isSome_iff_exists.mp hb
  obtain ⟨z, rfl⟩ := Option.isSome_iff_exists.mp hc
  have h1 : ¬ y < x := by intro hc'; simp [scoreGT, hc'] at hab
  have h2 : ¬ z < y := by intro hc'; simp [scoreGT, hc'] at hbc
  have h3 : ¬ z < x := not_lt.mpr (le_trans (not_lt.mp h1) (not_lt.mp h2))
  simp [scoreGT, h3]

lemma mem_insertScored {a x : Scored} {l : List Scored} :
    a ∈ insertScored x l ↔ a = x ∨ a ∈ l := by
  induction l with
  | nil => simp [insertScored]
  | cons y ys ih =>
    by_cases h : scoreGT x.score y.score = true
    · simp only [insertScored, if_pos h, List.mem_cons, ih]
      try tauto
    · simp only [insertScored, if_neg h, List.mem_cons]
      try tauto

lemma mem_sortScored {a : Scored} {l : List Scored} :
    a ∈ sortScored l ↔ a ∈ l := by
  induction l with
  | nil => simp [sortScored]
  | cons x xs ih => simp [sortScored, mem_insertScored, ih]

lemma sortScored_ne_nil {l : List Scored} (h : l ≠ []) :
    sortScored l ≠ [] := by
  cases l with
  | nil => exact absurd rfl h
  | cons x xs =>
    simp only [sortScored]
    cases hs : sortScored xs with
    | nil => simp [insertScored]
    | cons y ys =>
      simp only [insertScored]
      split <;> simp

/-- The head of the stable ascending sort is the earliest element of the
input attaining the minimum: every element listed before it compares
strictly greater, and it compares greater than nothing. -/
lemma sortScored_head_spec (l : List Scored)
    (hs : ∀ s ∈ l, (s.score).isSome = true) :
    ∀ h t, sortScored l = h :: t →
      ∃ pre post, l = pre ++ h :: post ∧
        (∀ x ∈ pre, scoreGT x.score h.score = true) ∧
        (∀ x ∈ l, scoreGT h.score x.score = false) := by
  induction l with
  | nil => intro h t he; simp [sortScored] at he
  | cons a l' ih =>
    intro h t he
    simp only [sortScored] at he
    cases hsort : sortScored l' with
    | nil =>
      have hl' : l' = [] := by
        by_contra hne
        exact sortScored_ne_nil hne hsort
      subst hl'
      rw [hsort] at he
      simp only [insertScored, List.cons.injEq] at he
      obtain ⟨rfl, rfl⟩ := he
      exact ⟨[], [], by simp, by simp, by
        intro x hx
        rw [List.mem_singleton] at hx
        subst hx
        exact scoreGT_irrefl _⟩
    | cons h' t' =>
      obtain ⟨pre', post', hdec, hpre', hmin'⟩ :=
        ih (fun s hsm => hs s (by simp [hsm])) h' t' hsort
      have hh'_mem : h' ∈ l' := by rw [hdec]; simp
      rw [hsort] at he
      simp only [insertScored] at he
      by_cases hgt : scoreGT a.score h'.score = true
      · rw [if_pos hgt] at he
        injection he with he1 he2
        subst he1
        subst he2
        refine ⟨a :: pre', post', by simp [hdec], ?_, ?_⟩
        · intro x hx
          rcases List.mem_cons.mp hx with rfl | hx
          · exact hgt
          · exact hpre' x hx
        · intro x hx
          rcases List.mem_cons.mp hx with rfl | hx
          · exact scoreGT_asymm hgt
          · exact hmin' x hx
      · rw [if_neg hgt] at he
        injection he with he1 he2
        subst he1
        subst he2
        refine ⟨[], l', by simp, by simp, ?_⟩
        intro x hx
        rcases List.mem_cons.mp hx with rfl | hx
        · exact scoreGT_irrefl _
        · exact scoreGT_false_trans (hs a (by simp))
            (hs h' (by simp [hh'_mem])) (hs x (by simp [hx]))
            (Bool.not_eq_true _ ▸ hgt) (hmin' x hx)

lemma char2_toNat : ('2' : Char).toNat = 50 := rfl
lemma char3_toNat : ('3' : Char).toNat = 51 := rfl
lemma char4_toNat : ('4' : Char).toNat = 52 := rfl
lemma char5_toNat : ('5' : Char).toNat = 53 := rfl
lemma char6_toNat : ('6' : Char).toNat = 54 := rfl
lemma char7_toNat : ('7' : Char).toNat = 55 := rfl
lemma char8_toNat : ('8' : Char).toNat = 56 := rfl

lemma mem_availableOf {loc : Location} {locations : List Location} :
    loc ∈ availableOf locations ↔
      loc ∈ locations ∧ loc.available = true ∧ loc.verified = true := by
  simp [availableOf, List.mem_filter, Bool.and_eq_true]

lemma mem_validOf {loc : Location} {locations : List Location} {weight : ℚ} :
    loc ∈ validOf locations weight ↔
      loc ∈ availableOf locations ∧
        canAcceptWeight loc weight
          (levelGroup (availableOf locations) loc) = true := by
  simp [validOf, validFrom, List.mem_filter]

lemma mem_scoredOf {s : Scored} {locations : List Location} {weight : ℚ} :
    s ∈ scoredOf locations weight ↔
      (∃ v ∈ validOf locations weight,
          Scored.mk v (totalScore (availableOf locations) weight v) = s)
        ∧ s.score ≠ some maxSafeInteger := by
  simp only [scoredOf, scoredFrom, List.mem_filter, List.mem_map, validOf]
  by_cases hm : s.score = some maxSafeInteger <;> simp [hm]

lemma validOf_nil_of_availableOf_nil {locations : List Location} {weight : ℚ}
    (h : availableOf locations = []) : validOf locations weight = [] := by
  simp [validOf, validFrom, h]

lemma scoredOf_nil_of_validOf_nil {locations : List Location} {weight : ℚ}
    (h : validOf locations weight = []) : scoredOf locations weight = [] := by
  have h' : validFrom (availableOf locations) weight = [] := h
  simp [scoredOf, scoredFrom, h']

/-- The three early returns collapse: the result is always the head of the
sorted scored list (the head of an empty list being `none`). -/
lemma findOptimalLocation_eq_head (locations : List Location) (weight : ℚ) :
    findOptimalLocation locations weight
      = ((sortScored (scoredOf locations weight)).head?).map Scored.location := by
  unfold findOptimalLocation
  by_cases h1 : (availableOf locations).isEmpty
  · have hsc : scoredOf locations weight = [] :=
      scoredOf_nil_of_validOf_nil
        (validOf_nil_of_availableOf_nil (List.isEmpty_iff.mp h1))
    simp [h1, hsc, sortScored]
  · by_cases h2 : (validOf locations weight).isEmpty
    · have hsc : scoredOf locations weight = [] :=
        scoredOf_nil_of_validOf_nil (List.isEmpty_iff.mp h2)
      simp [h1, h2, hsc, sortScored]
    · by_cases h3 : (scoredOf locations weight).isEmpty
      · simp [h1, h2, h3, List.isEmpty_iff.mp h3, sortScored]
      · simp [h1, h2, h3]

lemma findOptimalLocationSimple_eq_head (locations : List Location)
    (weight : ℚ) :
    findOptimalLocationSimple locations weight
      = ((sortScored (scoredSimpleFrom (availableOf locations) weight)).head?).map
          Scored.location := by
  unfold findOptimalLocationSimple
  by_cases h1 : (availableOf locations).isEmpty
  · have hv : validOf locations weight = [] :=
      validOf_nil_of_availableOf_nil (List.isEmpty_iff.mp h1)
    have hsc : scoredSimpleFrom (availableOf locations) weight = [] := by
      have h' : validFrom (availableOf locations) weight = [] := hv
      simp [scoredSimpleFrom, h']
    simp [h1, hsc, sortScored]
  · by_cases h2 : (validOf locations weight).isEmpty
    · have hsc : scoredSimpleFrom (availableOf locations) weight = [] := by
        have h' : validFrom (availableOf locations) weight = [] :=
          List.isEmpty_iff.mp h2
        simp [scoredSimpleFrom, h']
      simp [h1, h2, hsc, sortScored]
    · simp [h1, h2]

lemma result_mem_scored {locations : List Location} {weight : ℚ}
    {loc : Location} (h : findOptimalLocation locations weight = some loc) :
    ∃ s ∈ scoredOf locations weight, s.location = loc := by
  rw [findOptimalLocation_eq_head] at h
  cases hl : sortScored (scoredOf locations weight) with
  | nil => rw [hl] at h; simp at h
  | cons s t =>
    rw [hl] at h
    simp only [List.head?_cons, Option.map_some', Option.some.injEq] at h
    exact ⟨s, mem_sortScored.mp (hl ▸ List.mem_cons_self s t), h⟩

lemma result_mem_valid {locations : List Location} {weight : ℚ}
    {loc : Location} (h : findOptimalLocation locations weight = some loc) :
    loc ∈ validOf locations weight := by
  obtain ⟨s, hs, hloc⟩ := result_mem_scored h
  obtain ⟨⟨v, hv, hveq⟩, -⟩ := mem_scoredOf.mp hs
  have : v = loc := by rw [← hveq] at hloc; exact hloc
  exact this ▸ hv

lemma canAcceptWeight_false_of_gt {loc : Location} {weight m : ℚ}
    {g : List Location} (hm : LEVEL_MAX_WEIGHTS loc.level = some m)
    (hgt : m < getLevelWeight g + weight) :
    canAcceptWeight loc weight g = false := by
  simp only [canAcceptWeight, hm]
  by_cases hav : (!loc.available || !loc.verified) = true
  · simp [hav]
  · simp only [Bool.not_eq_true] at hav
    simp [hav, hgt]

lemma canAcceptWeight_le {loc : Location} {weight m : ℚ}
    {g : List Location} (hm : LEVEL_MAX_WEIGHTS loc.level = some m)
    (h : canAcceptWeight loc weight g = true) :
    getLevelWeight g + weight ≤ m := by
  by_contra hc
  push_neg at hc
  rw [canAcceptWeight_false_of_gt hm hc] at h
  exact absurd h (by simp)

lemma canAcceptWeight_intro {loc : Location} {weight m : ℚ}
    {g : List Location} (ha : loc.available = true) (hv : loc.verified = true)
    (hm : LEVEL_MAX_WEIGHTS loc.level = some m)
    (hle : getLevelWeight g + weight ≤ m) :
    canAcceptWeight loc weight g = true := by
  simp only [canAcceptWeight, hm]
  simp [ha, hv, not_lt.mpr hle]

lemma totalScore_eq {avail : List Location} {weight : ℚ} {loc : Location}
    {r b m : ℚ} (hr : charCodeAt0 loc.row = some r)
    (hb : parseIntQ loc.bay = some b)
    (hm : LEVEL_MAX_WEIGHTS loc.level = some m)
    (hle : getLevelWeight (levelGroup avail loc) + weight ≤ m) :
    totalScore avail weight loc
      = some ((r - 65) * 100 + (b - 1)
        + (weight * ((parseIntQ loc.level).getD 0) * 2
          + |m - (getLevelWeight (levelGroup avail loc) + weight)|
          + (getLevelWeight (levelGroup avail loc) + weight) / m * 1000)) := by
  simp only [totalScore, calculateDistanceScore, calculateWeightScore,
    hr, hb, hm]
  simp [not_lt.mpr hle]

lemma totalScore_isSome {avail : List Location} {weight : ℚ} {loc : Location}
    (h : wellFormed loc = true) :
    (totalScore avail weight loc).isSome = true := by
  unfold wellFormed at h
  simp only [Bool.and_eq_true, Option.isSome_iff_exists] at h
  obtain ⟨⟨⟨r, hr⟩, b, hb⟩, m, hm⟩ := h
  simp only [totalScore, calculateDistanceScore, calculateWeightScore,
    hr, hb, hm]
  by_cases hgt : m < getLevelWeight (levelGroup avail loc) + weight
  · simp [hgt]
  · simp [hgt]

lemma totalScore_eq_simple {avail : List Location} {weight : ℚ}
    {loc : Location}
    (h : canAcceptWeight loc weight (levelGroup avail loc) = true) :
    totalScore avail weight loc = totalScoreSimple avail weight loc := by
  cases hm : LEVEL_MAX_WEIGHTS loc.level with
  | none =>
    simp only [totalScore, totalScoreSimple, calculateWeightScore,
      calculateWeightScoreSimple, hm]
  | some m =>
    simp only [totalScore, totalScoreSimple, calculateWeightScore,
      calculateWeightScoreSimple, hm]
    simp [not_lt.mpr (canAcceptWeight_le hm h)]

lemma scoredOf_eq_map {locations : List Location} {weight : ℚ}
    (hns : ∀ l ∈ validOf locations weight,
      totalScore (availableOf locations) weight l ≠ some maxSafeInteger) :
    scoredOf locations weight = (validOf locations weight).map
      fun v => Scored.mk v (totalScore (availableOf locations) weight v) := by
  unfold scoredOf scoredFrom
  apply List.filter_eq_self.mpr
  intro s hs
  obtain ⟨v, hv, rfl⟩ := List.mem_map.mp hs
  simp [hns v hv]

lemma map_eq_append_cons {α β : Type} {f : α → β} :
    ∀ {l : List α} {p : List β} {s : β} {q : List β},
      l.map f = p ++ s :: q →
      ∃ p' x q', l = p' ++ x :: q' ∧ p'.map f = p ∧ f x = s := by
  intro l
  induction l with
  | nil => intro p s q h; simp at h
  | cons a as ih =>
    intro p s q h
    cases p with
    | nil =>
      simp only [List.map_cons, List.nil_append, List.cons.injEq] at h
      exact ⟨[], a, as, by simp, by simp, h.1⟩
    | cons b bs =>
      simp only [List.map_cons, List.cons_append, List.cons.injEq] at h
      obtain ⟨p', x, q', rfl, hmap, hfx⟩ := ih h.2
      exact ⟨a :: p', x, q', by simp, by simp [h.1, hmap], hfx⟩

lemma LEVEL_MAX_WEIGHTS_range {level : String} {m : ℚ}
    (h : LEVEL_MAX_WEIGHTS level = some m) :
    0 < m ∧ m ≤ 2000 ∧ 0 ≤ (parseIntQ level).getD 0
      ∧ (parseIntQ level).getD 0 ≤ 4 := by
  unfold LEVEL_MAX_WEIGHTS at h
  split_ifs at h with h0 h1 h2 h3 h4 <;>
    simp only [Option.some.injEq] at h <;> subst h <;>
    first
    | (subst h0
       norm_num +decide [parseIntQ, parseDigits, char0_toNat])
    | (subst h1
       norm_num +decide [parseIntQ, parseDigits, char1_toNat])
    | (subst h2
       norm_num +decide [parseIntQ, parseDigits, char2_toNat])
    | (subst h3
       norm_num +decide [parseIntQ, parseDigits, char3_toNat])
    | (subst h4
       norm_num +decide [parseIntQ, parseDigits, char4_toNat])

lemma availableOf_congr_mid {l₁ l₂ : List Location} {loc : Location}
    (h : (loc.available && loc.verified) = false) :
    availableOf (l₁ ++ loc :: l₂) = availableOf (l₁ ++ l₂) := by
  simp [availableOf, List.filter_append, List.filter_cons, h]

lemma findOptimalLocation_congr {locs locs' : List Location} {weight : ℚ}
    (h : availableOf locs = availableOf locs') :
    findOptimalLocation locs weight = findOptimalLocation locs' weight := by
  unfold findOptimalLocation validOf scoredOf
  rw [h]

/-! Concrete evaluations of the engine, shared by the claim theorems. -/

set_option maxHeartbeats 1600000 in
/-- Scenario 3 of spec §8: one empty tier-0 and one empty tier-1 slot of
bay A01, weight 100.  The tier-1 slot wins (score 5000/3 against 1950). -/
lemma eval_twoTier : findOptimalLocation [locA0, locA1] 100 = some locA1 := by
  norm_num +decide [findOptimalLocation, availableOf, validOf, validFrom,
    scoredOf, scoredFrom, levelGroup, getLevelId, canAcceptWeight,
    getLevelWeight, LEVEL_MAX_WEIGHTS, totalScore, calculateDistanceScore,
    charCodeAt0, parseIntQ, parseDigits, calculateWeightScore,
    maxSafeInteger, sortScored, insertScored, scoreGT, locA0, locA1,
    charA_toNat, char0_toNat, char1_toNat, char2_toNat, char3_toNat,
    char4_toNat, char5_toNat, char6_toNat, char7_toNat, char8_toNat,
    char9_toNat]

set_option maxHeartbeats 1600000 in
lemma eval_valid_twoTier : validOf [locA0, locA1] 100 = [locA0, locA1] := by
  norm_num +decide [validOf, validFrom, availableOf, levelGroup, getLevelId,
    canAcceptWeight, getLevelWeight, LEVEL_MAX_WEIGHTS, locA0, locA1]

set_option maxHeartbeats 1600000 in
lemma eval_score_A0 :
    totalScore (availableOf [locA0, locA1]) 100 locA0 = some 1950 := by
  norm_num +decide [totalScore, availableOf, levelGroup, getLevelId,
    getLevelWeight, LEVEL_MAX_WEIGHTS, calculateDistanceScore, charCodeAt0,
    parseIntQ, parseDigits, calculateWeightScore, locA0, locA1,
    charA_toNat, char0_toNat, char1_toNat, char2_toNat, char3_toNat,
    char4_toNat, char5_toNat, char6_toNat, char7_toNat, char8_toNat,
    char9_toNat]

set_option maxHeartbeats 1600000 in
lemma eval_score_A1 :
    totalScore (availableOf [locA0, locA1]) 100 locA1 = some (5000 / 3) := by
  norm_num +decide [totalScore, availableOf, levelGroup, getLevelId,
    getLevelWeight, LEVEL_MAX_WEIGHTS, calculateDistanceScore, charCodeAt0,
    parseIntQ, parseDigits, calculateWeightScore, locA0, locA1,
    charA_toNat, char0_toNat, char1_toNat, char2_toNat, char3_toNat,
    char4_toNat, char5_toNat, char6_toNat, char7_toNat, char8_toNat,
    char9_toNat]

set_option maxHeartbeats 1600000 in
/-- A slot with an unconfigured tier is accepted and returned (its NaN
score passes the `!== MAX_SAFE_INTEGER` filter). -/
lemma eval_loc9 : findOptimalLocation [loc9] 100 = some loc9 := by
  norm_num +decide [findOptimalLocation, availableOf, validOf, validFrom,
    scoredOf, scoredFrom, levelGroup, getLevelId, canAcceptWeight,
    getLevelWeight, LEVEL_MAX_WEIGHTS, totalScore, calculateDistanceScore,
    charCodeAt0, parseIntQ, parseDigits, calculateWeightScore,
    maxSafeInteger, sortScored, insertScored, scoreGT, loc9]

set_option maxHeartbeats 1600000 in
/-- Both huge-bay slots are eligible, but `locBig`'s total score is exactly
the sentinel, so it is filtered out and the worse-scoring `locBig2` wins. -/
lemma eval_bigPair :
    findOptimalLocation [locBig, locBig2] 1000 = some locBig2 := by
  norm_num +decide [findOptimalLocation, availableOf, validOf, validFrom,
    scoredOf, scoredFrom, levelGroup, getLevelId, canAcceptWeight,
    getLevelWeight, LEVEL_MAX_WEIGHTS, totalScore, calculateDistanceScore,
    charCodeAt0, parseIntQ, parseDigits, calculateWeightScore,
    maxSafeInteger, sortScored, insertScored, scoreGT, locBig, locBig2,
    charA_toNat, char0_toNat, char1_toNat, char2_toNat, char3_toNat,
    char4_toNat, char5_toNat, char6_toNat, char7_toNat, char8_toNat,
    char9_toNat]

set_option maxHeartbeats 1600000 in
lemma eval_big_score :
    totalScore (availableOf [locBig, locBig2]) 1000 locBig
      = some 9007199254740991 := by
  norm_num +decide [totalScore, availableOf, levelGroup, getLevelId,
    getLevelWeight, LEVEL_MAX_WEIGHTS, calculateDistanceScore, charCodeAt0,
    parseIntQ, parseDigits, calculateWeightScore, locBig, locBig2,
    charA_toNat, char0_toNat, char1_toNat, char2_toNat, char3_toNat,
    char4_toNat, char5_toNat, char6_toNat, char7_toNat, char8_toNat,
    char9_toNat]

set_option maxHeartbeats 1600000 in
lemma eval_big2_score :
    totalScore (availableOf [locBig, locBig2]) 1000 locBig2
      = some 9007199254740996 := by
  norm_num +decide [totalScore, availableOf, levelGroup, getLevelId,
    getLevelWeight, LEVEL_MAX_WEIGHTS, calculateDistanceScore, charCodeAt0,
    parseIntQ, parseDigits, calculateWeightScore, locBig, locBig2,
    charA_toNat, char0_toNat, char1_toNat, char2_toNat, char3_toNat,
    char4_toNat, char5_toNat, char6_toNat, char7_toNat, char8_toNat,
    char9_toNat]

set_option maxHeartbeats 1600000 in
lemma eval_big_none : findOptimalLocation [locBig] 1000 = none := by
  norm_num +decide [findOptimalLocation, availableOf, validOf, validFrom,
    scoredOf, scoredFrom, levelGroup, getLevelId, canAcceptWeight,
    getLevelWeight, LEVEL_MAX_WEIGHTS, totalScore, calculateDistanceScore,
    charCodeAt0, parseIntQ, parseDigits, calculateWeightScore,
    maxSafeInteger, sortScored, insertScored, scoreGT, locBig,
    charA_toNat, char0_toNat, char1_toNat, char2_toNat, char3_toNat,
    char4_toNat, char5_toNat, char6_toNat, char7_toNat, char8_toNat,
    char9_toNat]

set_option maxHeartbeats 1600000 in
lemma eval_big_simple :
    findOptimalLocationSimple [locBig] 1000 = some locBig := by
  norm_num +decide [findOptimalLocationSimple, availableOf, validOf,
    validFrom, scoredSimpleFrom, levelGroup, getLevelId, canAcceptWeight,
    getLevelWeight, LEVEL_MAX_WEIGHTS, totalScoreSimple,
    calculateDistanceScore, charCodeAt0, parseIntQ, parseDigits,
    calculateWeightScoreSimple, sortScored, insertScored, scoreGT, locBig,
    charA_toNat, char0_toNat, char1_toNat, char2_toNat, char3_toNat,
    char4_toNat, char5_toNat, char6_toNat, char7_toNat, char8_toNat,
    char9_toNat]

set_option maxHeartbeats 1600000 in
lemma eval_big_accept :
    canAcceptWeight locBig 1000 (levelGroup (availableOf [locBig]) locBig)
      = true := by
  norm_num +decide [canAcceptWeight, availableOf, levelGroup, getLevelId,
    getLevelWeight, LEVEL_MAX_WEIGHTS, locBig]

set_option maxHeartbeats 1600000 in
lemma eval_big_score_single :
    totalScore (availableOf [locBig]) 1000 locBig = some maxSafeInteger := by
  norm_num +decide [totalScore, availableOf, levelGroup, getLevelId,
    getLevelWeight, LEVEL_MAX_WEIGHTS, calculateDistanceScore, charCodeAt0,
    parseIntQ, parseDigits, calculateWeightScore, maxSafeInteger, locBig,
    charA_toNat, char0_toNat, char1_toNat, char2_toNat, char3_toNat,
    char4_toNat, char5_toNat, char6_toNat, char7_toNat, char8_toNat,
    char9_toNat]

set_option maxHeartbeats 1600000 in
/-- With two eligible slots tied at exactly the sentinel score plus a
strictly worse third, the tied pair is filtered out and the third wins. -/
lemma eval_tripleBig :
    findOptimalLocation [locBig, locBigB, locBig2] 1000 = some locBig2 := by
  norm_num +decide [findOptimalLocation, availableOf, validOf, validFrom,
    scoredOf, scoredFrom, levelGroup, getLevelId, canAcceptWeight,
    getLevelWeight, LEVEL_MAX_WEIGHTS, totalScore, calculateDistanceScore,
    charCodeAt0, parseIntQ, parseDigits, calculateWeightScore,
    maxSafeInteger, sortScored, insertScored, scoreGT, locBig, locBigB,
    locBig2, charA_toNat, char0_toNat, char1_toNat, char2_toNat,
    char3_toNat, char4_toNat, char5_toNat, char6_toNat, char7_toNat,
    char8_toNat, char9_toNat]

set_option maxHeartbeats 1600000 in
lemma eval_triple_accept_Big :
    canAcceptWeight locBig 1000
      (levelGroup (availableOf [locBig, locBigB, locBig2]) locBig)
      = true := by
  norm_num +decide [canAcceptWeight, availableOf, levelGroup, getLevelId,
    getLevelWeight, LEVEL_MAX_WEIGHTS, locBig, locBigB, locBig2]

set_option maxHeartbeats 1600000 in
lemma eval_triple_accept_BigB :
    canAcceptWeight locBigB 1000
      (levelGroup (availableOf [locBig, locBigB, locBig2]) locBigB)
      = true := by
  norm_num +decide [canAcceptWeight, availableOf, levelGroup, getLevelId,
    getLevelWeight, LEVEL_MAX_WEIGHTS, locBig, locBigB, locBig2]

set_option maxHeartbeats 1600000 in
lemma eval_triple_score_Big :
    totalScore (availableOf [locBig, locBigB, locBig2]) 1000 locBig
      = some 9007199254740991 := by
  norm_num +decide [totalScore, availableOf, levelGroup, getLevelId,
    getLevelWeight, LEVEL_MAX_WEIGHTS, calculateDistanceScore, charCodeAt0,
    parseIntQ, parseDigits, calculateWeightScore, locBig, locBigB, locBig2,
    charA_toNat, char0_toNat, char1_toNat, char2_toNat, char3_toNat,
    char4_toNat, char5_toNat, char6_toNat, char7_toNat, char8_toNat,
    char9_toNat]

set_option maxHeartbeats 1600000 in
lemma eval_triple_score_BigB :
    totalScore (availableOf [locBig, locBigB, locBig2]) 1000 locBigB
      = some 9007199254740991 := by
  norm_num +decide [totalScore, availableOf, levelGroup, getLevelId,
    getLevelWeight, LEVEL_MAX_WEIGHTS, calculateDistanceScore, charCodeAt0,
    parseIntQ, parseDigits, calculateWeightScore, locBig, locBigB, locBig2,
    charA_toNat, char0_toNat, char1_toNat, char2_toNat, char3_toNat,
    char4_toNat, char5_toNat, char6_toNat, char7_toNat, char8_toNat,
    char9_toNat]

set_option maxHeartbeats 1600000 in
/-- Two identically-placed slots tie at score 1950; the first-listed wins. -/
lemma eval_tie : findOptimalLocation [locT1, locT2] 100 = some locT1 := by
  norm_num +decide [findOptimalLocation, availableOf, validOf, validFrom,
    scoredOf, scoredFrom, levelGroup, getLevelId, canAcceptWeight,
    getLevelWeight, LEVEL_MAX_WEIGHTS, totalScore, calculateDistanceScore,
    charCodeAt0, parseIntQ, parseDigits, calculateWeightScore,
    maxSafeInteger, sortScored, insertScored, scoreGT, locT1, locT2,
    charA_toNat, char0_toNat, char1_toNat, char2_toNat, char3_toNat,
    char4_toNat, char5_toNat, char6_toNat, char7_toNat, char8_toNat,
    char9_toNat]

set_option maxHeartbeats 1600000 in
lemma eval_valid_tie : validOf [locT1, locT2] 100 = [locT1, locT2] := by
  norm_num +decide [validOf, validFrom, availableOf, levelGroup, getLevelId,
    canAcceptWeight, getLevelWeight, LEVEL_MAX_WEIGHTS, locT1, locT2]

set_option maxHeartbeats 1600000 in
lemma eval_score_T1 :
    totalScore (availableOf [locT1, locT2]) 100 locT1 = some 1950 := by
  norm_num +decide [totalScore, availableOf, levelGroup, getLevelId,
    getLevelWeight, LEVEL_MAX_WEIGHTS, calculateDistanceScore, charCodeAt0,
    parseIntQ, parseDigits, calculateWeightScore, locT1, locT2,
    charA_toNat, char0_toNat, char1_toNat, char2_toNat, char3_toNat,
    char4_toNat, char5_toNat, char6_toNat, char7_toNat, char8_toNat,
    char9_toNat]

set_option maxHeartbeats 1600000 in
lemma eval_score_T2 :
    totalScore (availableOf [locT1, locT2]) 100 locT2 = some 1950 := by
  norm_num +decide [totalScore, availableOf, levelGroup, getLevelId,
    getLevelWeight, LEVEL_MAX_WEIGHTS, calculateDistanceScore, charCodeAt0,
    parseIntQ, parseDigits, calculateWeightScore, locT1, locT2,
    charA_toNat, char0_toNat, char1_toNat, char2_toNat, char3_toNat,
    char4_toNat, char5_toNat, char6_toNat, char7_toNat, char8_toNat,
    char9_toNat]

/-! The claims. -/

/-- C1 (counterexample): in the spec's scenario — an empty tier-0 slot and
an empty tier-1 slot of the same bay, `requiredWeight = 100` — the engine
does NOT return the tier-0 location as the claim states. -/
theorem claim1_counterexample :
    findOptimalLocation [locA0, locA1] 100 ≠ some locA0 := by
  rw [eval_twoTier]
  simp +decide [locA0, locA1]

/-- C1 (amended): for a placement request with `requiredWeight = 100` over
one empty tier-0 and one empty tier-1 slot of the same row and bay, the
engine returns the tier-1 location: the capacity-efficiency term
`|levelMax - newLevelWeight|` (1400 against 1900) outweighs the height
penalty (200 against 0), giving 5000/3 against 1950. -/
theorem claim1_theorem :
    findOptimalLocation [locA0, locA1] 100 = some locA1 :=
  eval_twoTier

/-- C2: a candidate whose `level` has no entry in `LEVEL_MAX_WEIGHTS` is
NOT rejected and no fault is raised: `canAcceptWeight` returns `true` (the
JS comparison with `undefined` is `false`) and `findOptimalLocation`
returns the location, its NaN score passing the sentinel filter.  The code
contradicts the claim's required behaviour (fail eligibility, signal a
missing-configuration fault). -/
theorem claim2_theorem :
    LEVEL_MAX_WEIGHTS loc9.level = none ∧
    canAcceptWeight loc9 100 [loc9] = true ∧
    findOptimalLocation [loc9] 100 = some loc9 := by
  refine ⟨by norm_num +decide [LEVEL_MAX_WEIGHTS, loc9], ?_, eval_loc9⟩
  norm_num +decide [canAcceptWeight, getLevelWeight, LEVEL_MAX_WEIGHTS, loc9]

/-- C4: any returned location's level aggregate (over the available and
verified snapshot) plus the required weight stays within the configured
maximum, and the boundary is exactly `<=`: a level sitting at its cap
admits weight 0 and rejects weight 1. -/
theorem claim4_theorem :
    (∀ (locations : List Location) (weight : ℚ) (loc : Location) (m : ℚ),
      findOptimalLocation locations weight = some loc →
      LEVEL_MAX_WEIGHTS loc.level = some m →
      getLevelWeight (levelGroup (availableOf locations) loc) + weight ≤ m)
    ∧ canAcceptWeight locAtCap 0 [locAtCap] = true
    ∧ canAcceptWeight locAtCap 1 [locAtCap] = false := by
  refine ⟨?_, ?_, ?_⟩
  · intro locations weight loc m hfind hm
    exact canAcceptWeight_le hm (mem_validOf.mp (result_mem_valid hfind)).2
  · norm_num +decide [canAcceptWeight, getLevelWeight, LEVEL_MAX_WEIGHTS,
      locAtCap]
  · norm_num +decide [canAcceptWeight, getLevelWeight, LEVEL_MAX_WEIGHTS,
      locAtCap]

/-- C4 (witness): the first conjunct applied to the two-tier scenario,
whose winning tier-1 slot carries 0 + 100 ≤ 1500. -/
theorem claim4_witness :
    getLevelWeight (levelGroup (availableOf [locA0, locA1]) locA1) + 100
      ≤ 1500 :=
  claim4_theorem.1 [locA0, locA1] 100 locA1 1500 eval_twoTier
    (by norm_num +decide [LEVEL_MAX_WEIGHTS, locA1])

/-- C5: the engine never returns a location whose `available` or `verified`
field is false. -/
theorem claim5_theorem :
    ∀ (locations : List Location) (weight : ℚ) (loc : Location),
    findOptimalLocation locations weight = some loc →
    loc.available = true ∧ loc.verified = true := by
  intro locations weight loc h
  have hm := mem_availableOf.mp (mem_validOf.mp (result_mem_valid h)).1
  exact ⟨hm.2.1, hm.2.2⟩

/-- C5 (witness): the theorem applied to the two-tier scenario. -/
theorem claim5_witness : locA1.available = true ∧ locA1.verified = true :=
  claim5_theorem [locA0, locA1] 100 locA1 eval_twoTier

/-- C6: the empty candidate list yields `none`, and so does any list every
candidate of which would push its level aggregate beyond its configured
maximum; the function is total, so no error can be raised. -/
theorem claim6_theorem :
    (∀ weight : ℚ, findOptimalLocation [] weight = none) ∧
    (∀ (locations : List Location) (weight : ℚ),
      (∀ loc ∈ locations, ∃ m, LEVEL_MAX_WEIGHTS loc.level = some m ∧
        m < getLevelWeight (levelGroup (availableOf locations) loc) + weight) →
      findOptimalLocation locations weight = none) := by
  constructor
  · intro weight
    simp [findOptimalLocation, availableOf]
  · intro locations weight h
    rw [findOptimalLocation_eq_head]
    have hv : validOf locations weight = [] := by
      rw [validOf, validFrom, List.filter_eq_nil_iff]
      intro loc hl
      obtain ⟨m, hm, hgt⟩ := h loc (mem_availableOf.mp hl).1
      simp [canAcceptWeight_false_of_gt hm hgt]
    rw [scoredOf_nil_of_validOf_nil hv]
    simp [sortScored]

/-- C6 (witness): the empty list at weight 50, and spec §8 scenario 2 — a
tier-0 level already holding 1800 kg with `requiredWeight = 300`. -/
theorem claim6_witness :
    findOptimalLocation [] 50 = none ∧
    findOptimalLocation [loc1800] 300 = none := by
  refine ⟨claim6_theorem.1 50, claim6_theorem.2 [loc1800] 300 ?_⟩
  intro loc hl
  simp only [List.mem_singleton] at hl
  subst hl
  refine ⟨2000, by norm_num +decide [LEVEL_MAX_WEIGHTS, loc1800], ?_⟩
  norm_num +decide [availableOf, levelGroup, getLevelId, getLevelWeight,
    loc1800]

/-- C10: the level aggregate used by the engine is computed over the
pre-filtered available-and-verified snapshot only — inserting a
non-eligible location anywhere in the input changes nothing — and a
location lacking a `currentWeight` contributes zero to `getLevelWeight`. -/
theorem claim10_theorem :
    (∀ (l₁ : List Location) (loc : Location) (l₂ : List Location)
        (weight : ℚ),
      (loc.available && loc.verified) = false →
      findOptimalLocation (l₁ ++ loc :: l₂) weight
        = findOptimalLocation (l₁ ++ l₂) weight) ∧
    (∀ (l₁ : List Location) (loc : Location) (l₂ : List Location),
      loc.currentWeight = none →
      getLevelWeight (l₁ ++ loc :: l₂) = getLevelWeight (l₁ ++ l₂)) := by
  constructor
  · intro l₁ loc l₂ weight h
    exact findOptimalLocation_congr (availableOf_congr_mid h)
  · intro l₁ loc l₂ h
    rw [getLevelWeight_append, getLevelWeight_append, getLevelWeight_cons, h]
    simp

/-- C10 (witness): an unavailable 1999 kg slot inserted between the two
eligible slots is ignored, and a slot with no `currentWeight` adds zero. -/
theorem claim10_witness :
    findOptimalLocation ([locA0] ++ locUnavail :: [locA1]) 100
      = findOptimalLocation ([locA0] ++ [locA1]) 100 ∧
    getLevelWeight ([locA0] ++ locNoCw :: [locA1])
      = getLevelWeight ([locA0] ++ [locA1]) :=
  ⟨claim10_theorem.1 [locA0] locUnavail [locA1] 100 (by simp [locUnavail]),
   claim10_theorem.2 [locA0] locNoCw [locA1] (by simp [locNoCw])⟩

lemma scoredOf_isSome (locations : List Location) (weight : ℚ)
    (hwf : ∀ l ∈ locations, wellFormed l = true) :
    ∀ s ∈ scoredOf locations weight, (s.score).isSome = true := by
  intro s hsm
  obtain ⟨⟨v, hv, hveq⟩, -⟩ := mem_scoredOf.mp hsm
  rw [← hveq]
  exact totalScore_isSome
    (hwf v (mem_availableOf.mp (mem_validOf.mp hv).1).1)

/-- C3 (counterexample): an eligible, available, verified, cap-respecting
candidate whose total score is exactly `Number.MAX_SAFE_INTEGER` (a huge
numeric bay makes the distance score 9007199254739491 and the weight score
1500) is removed by the sentinel filter, and the engine returns the other
candidate whose score, 9007199254740996, is strictly larger — so the
returned location's score is not minimal among eligible candidates. -/
theorem claim3_counterexample :
    findOptimalLocation [locBig, locBig2] 1000 = some locBig2 ∧
    locBig.available = true ∧ locBig.verified = true ∧
    LEVEL_MAX_WEIGHTS locBig.level = some 2000 ∧
    getLevelWeight (levelGroup (availableOf [locBig, locBig2]) locBig)
      + 1000 ≤ 2000 ∧
    totalScore (availableOf [locBig, locBig2]) 1000 locBig
      = some 9007199254740991 ∧
    totalScore (availableOf [locBig, locBig2]) 1000 locBig2
      = some 9007199254740996 ∧
    ¬ ((9007199254740996 : ℚ) ≤ 9007199254740991) := by
  refine ⟨eval_bigPair, by decide, by decide, by decide, ?_,
    eval_big_score, eval_big2_score, by norm_num⟩
  norm_num +decide [availableOf, levelGroup, getLevelId, getLevelWeight,
    locBig, locBig2]

/-- C3 (amended): for candidates matching the spec's data model and when no
eligible candidate's total score equals the `MAX_SAFE_INTEGER` sentinel,
any returned location's score is minimal among the available, verified
candidates whose level aggregate plus the required weight stays within the
configured maximum. -/
theorem claim3_theorem :
    ∀ (locations : List Location) (weight : ℚ) (loc : Location),
    (∀ l ∈ locations, wellFormed l = true) →
    (∀ l ∈ validOf locations weight,
      totalScore (availableOf locations) weight l ≠ some maxSafeInteger) →
    findOptimalLocation locations weight = some loc →
    ∃ q, totalScore (availableOf locations) weight loc = some q ∧
      ∀ l ∈ locations, l.available = true → l.verified = true →
        ∀ m, LEVEL_MAX_WEIGHTS l.level = some m →
        getLevelWeight (levelGroup (availableOf locations) l) + weight ≤ m →
        ∀ q', totalScore (availableOf locations) weight l = some q' →
          q ≤ q' := by
  intro locations weight loc hwf hns hfind
  have hmap := scoredOf_eq_map hns
  have hsome := scoredOf_isSome locations weight hwf
  rw [findOptimalLocation_eq_head] at hfind
  cases hl : sortScored (scoredOf locations weight) with
  | nil => rw [hl] at hfind; simp at hfind
  | cons s t =>
    rw [hl] at hfind
    simp only [List.head?_cons, Option.map_some', Option.some.injEq] at hfind
    obtain ⟨pre, post, hdec, hpre, hmin⟩ := sortScored_head_spec _ hsome s t hl
    have hsmem : s ∈ scoredOf locations weight := by rw [hdec]; simp
    obtain ⟨⟨v, hv, hveq⟩, -⟩ := mem_scoredOf.mp hsmem
    have hvloc : v = loc := by rw [← hveq] at hfind; exact hfind
    subst hvloc
    have hscore : s.score = totalScore (availableOf locations) weight v := by
      rw [← hveq]
    obtain ⟨q, hq⟩ := Option.isSome_iff_exists.mp (hsome s hsmem)
    refine ⟨q, by rw [← hscore]; exact hq, ?_⟩
    intro l hlmem ha hv' m hm hle q' hq'
    have hlv : l ∈ validOf locations weight :=
      mem_validOf.mpr ⟨mem_availableOf.mpr ⟨hlmem, ha, hv'⟩,
        canAcceptWeight_intro ha hv' hm hle⟩
    have hx : Scored.mk l (totalScore (availableOf locations) weight l)
        ∈ scoredOf locations weight := by
      rw [hmap]; exact List.mem_map.mpr ⟨l, hlv, rfl⟩
    have hgt := hmin _ hx
    have hgt2 : scoreGT (some q) (some q') = false := by
      rw [← hq, ← hq']
      exact hgt
    have hnlt : ¬ q' < q := by intro hc; simp [scoreGT, hc] at hgt2
    exact not_lt.mp hnlt

/-- C3 (witness): the amended theorem applied to the two-tier scenario. -/
theorem claim3_witness :
    ∃ q, totalScore (availableOf [locA0, locA1]) 100 locA1 = some q ∧
      ∀ l ∈ ([locA0, locA1] : List Location),
        l.available = true → l.verified = true →
        ∀ m, LEVEL_MAX_WEIGHTS l.level = some m →
        getLevelWeight (levelGroup (availableOf [locA0, locA1]) l) + 100 ≤ m →
        ∀ q', totalScore (availableOf [locA0, locA1]) 100 l = some q' →
          q ≤ q' :=
  claim3_theorem [locA0, locA1] 100 locA1
    (by intro l hl; fin_cases hl <;> decide)
    (by intro l hl
        rw [eval_valid_twoTier] at hl
        fin_cases hl
        · rw [eval_score_A0]; norm_num [maxSafeInteger]
        · rw [eval_score_A1]; norm_num [maxSafeInteger])
    eval_twoTier

/-- C7 (counterexample): two eligible candidates tied at exactly the
sentinel score (equal scores, earliest listed first) are both removed by
the post-scoring filter, and the engine returns the strictly worse,
later-listed third candidate — not the candidate that appears earliest in
input iteration order, refuting the claim as stated. -/
theorem claim7_counterexample :
    canAcceptWeight locBig 1000
      (levelGroup (availableOf [locBig, locBigB, locBig2]) locBig)
      = true ∧
    canAcceptWeight locBigB 1000
      (levelGroup (availableOf [locBig, locBigB, locBig2]) locBigB)
      = true ∧
    totalScore (availableOf [locBig, locBigB, locBig2]) 1000 locBig
      = totalScore (availableOf [locBig, locBigB, locBig2]) 1000 locBigB ∧
    findOptimalLocation [locBig, locBigB, locBig2] 1000 = some locBig2 ∧
    locBig2 ≠ locBig ∧ locBig2 ≠ locBigB := by
  refine ⟨eval_triple_accept_Big, eval_triple_accept_BigB, ?_,
    eval_tripleBig, by decide, by decide⟩
  rw [eval_triple_score_Big, eval_triple_score_BigB]

/-- C7 (amended): provided candidates match the spec's data model and no
eligible candidate's total score equals the `MAX_SAFE_INTEGER` sentinel
(the carve-out the counterexample forces), the selection is deterministic
and breaks score ties by input order: when the engine returns a location,
the eligible list splits as `pre ++ loc :: post` with every candidate in
`pre` scoring strictly worse — in particular every tied candidate sits at
or after the returned one. -/
theorem claim7_theorem :
    ∀ (locations : List Location) (weight : ℚ) (loc : Location),
    (∀ l ∈ locations, wellFormed l = true) →
    (∀ l ∈ validOf locations weight,
      totalScore (availableOf locations) weight l ≠ some maxSafeInteger) →
    findOptimalLocation locations weight = some loc →
    ∃ pre post, validOf locations weight = pre ++ loc :: post ∧
      ∀ l ∈ pre, ∀ q q',
        totalScore (availableOf locations) weight loc = some q →
        totalScore (availableOf locations) weight l = some q' → q < q' := by
  intro locations weight loc hwf hns hfind
  have hmap := scoredOf_eq_map hns
  have hsome := scoredOf_isSome locations weight hwf
  rw [findOptimalLocation_eq_head] at hfind
  cases hl : sortScored (scoredOf locations weight) with
  | nil => rw [hl] at hfind; simp at hfind
  | cons s t =>
    rw [hl] at hfind
    simp only [List.head?_cons, Option.map_some', Option.some.injEq] at hfind
    obtain ⟨preS, postS, hdec, hpreS, hmin⟩ :=
      sortScored_head_spec _ hsome s t hl
    rw [hmap] at hdec
    obtain ⟨pre, x, post, hvdec, hpremap, hfx⟩ := map_eq_append_cons hdec
    have hxloc : x = loc := by rw [← hfx] at hfind; exact hfind
    subst hxloc
    refine ⟨pre, post, hvdec, ?_⟩
    intro l hlpre q q' hq hq'
    have hflmem : Scored.mk l (totalScore (availableOf locations) weight l)
        ∈ preS := by
      rw [← hpremap]; exact List.mem_map.mpr ⟨l, hlpre, rfl⟩
    have hgt := hpreS _ hflmem
    rw [← hfx] at hgt
    have hgt2 : scoreGT (some q') (some q) = true := by
      rw [← hq', ← hq]
      exact hgt
    have : q < q' := by
      by_contra hc
      simp [scoreGT, not_lt.mp hc] at hgt2
      exact absurd hgt2 (by simp [not_lt.mp hc])
    exact this

/-- C7 (witness): two identically-placed tied slots; the engine returns the
first-listed, with an empty `pre`. -/
theorem claim7_witness :
    ∃ pre post, validOf [locT1, locT2] 100 = pre ++ locT1 :: post ∧
      ∀ l ∈ pre, ∀ q q',
        totalScore (availableOf [locT1, locT2]) 100 locT1 = some q →
        totalScore (availableOf [locT1, locT2]) 100 l = some q' → q < q' :=
  claim7_theorem [locT1, locT2] 100 locT1
    (by intro l hl; fin_cases hl <;> decide)
    (by intro l hl
        rw [eval_valid_tie] at hl
        fin_cases hl
        · rw [eval_score_T1]; norm_num [maxSafeInteger]
        · rw [eval_score_T2]; norm_num [maxSafeInteger])
    eval_tie

/-- C8: for every eligible candidate the score used by the engine is the
closed-form `distanceScore + weightScore`: `(rowRank)*100 + bay - 1` plus
`weight*tier*2 + |levelMax - newLevelWeight| + newLevelWeight/levelMax*1000`
with `newLevelWeight` the level aggregate plus the required weight. -/
theorem claim8_theorem :
    ∀ (locations : List Location) (weight : ℚ) (loc : Location)
      (m r b tier : ℚ),
    loc ∈ validOf locations weight →
    LEVEL_MAX_WEIGHTS loc.level = some m →
    charCodeAt0 loc.row = some r →
    parseIntQ loc.bay = some b →
    parseIntQ loc.level = some tier →
    totalScore (availableOf locations) weight loc
      = some ((r - 65) * 100 + (b - 1)
        + (weight * tier * 2
          + |m - (getLevelWeight (levelGroup (availableOf locations) loc)
              + weight)|
          + (getLevelWeight (levelGroup (availableOf locations) loc)
              + weight) / m * 1000)) := by
  intro locations weight loc m r b tier hv hm hr hb ht
  have hle := canAcceptWeight_le hm (mem_validOf.mp hv).2
  have h8 := totalScore_eq hr hb hm hle
  rw [ht] at h8
  simpa using h8

/-- C8 (witness): the formula instantiated at the winning tier-1 slot. -/
theorem claim8_witness :
    totalScore (availableOf [locA0, locA1]) 100 locA1
      = some ((65 - 65 : ℚ) * 100 + (1 - 1)
        + (100 * 1 * 2
          + |1500 - (getLevelWeight (levelGroup (availableOf [locA0, locA1])
              locA1) + 100)|
          + (getLevelWeight (levelGroup (availableOf [locA0, locA1]) locA1)
              + 100) / 1500 * 1000)) :=
  claim8_theorem [locA0, locA1] 100 locA1 1500 65 1 1
    (by rw [eval_valid_twoTier]; simp)
    (by decide) (by decide) (by decide) (by decide)

/-- C9 (counterexample): an eligible candidate (`canAcceptWeight` true)
whose total score equals the sentinel exactly: the post-scoring filter
removes it, `findOptimalLocation` returns `none`, and the simplified
engine that omits the sentinel branch and filter returns the location —
the two engines differ, refuting the claimed equivalence on every input. -/
theorem claim9_counterexample :
    canAcceptWeight locBig 1000 (levelGroup (availableOf [locBig]) locBig)
      = true ∧
    totalScore (availableOf [locBig]) 1000 locBig = some maxSafeInteger ∧
    findOptimalLocation [locBig] 1000 = none ∧
    findOptimalLocationSimple [locBig] 1000 = some locBig :=
  ⟨eval_big_accept, eval_big_score_single, eval_big_none, eval_big_simple⟩

/-- C9 (amended): for an eligible candidate satisfying the spec's data
invariants (configured tier, nonnegative stored weights, nonnegative
required weight) the scorer itself never returns the sentinel; and the
simplified engine agrees with `findOptimalLocation` on every input on
which no eligible candidate's total score equals the sentinel — the filter
can only differ when a total score hits `MAX_SAFE_INTEGER` exactly. -/
theorem claim9_theorem :
    (∀ (loc : Location) (weight m : ℚ) (g : List Location),
      canAcceptWeight loc weight g = true →
      LEVEL_MAX_WEIGHTS loc.level = some m →
      (∀ l ∈ g, ∀ q, l.currentWeight = some q → 0 ≤ q) →
      0 ≤ weight →
      calculateWeightScore weight loc.level g ≠ some maxSafeInteger) ∧
    (∀ (locations : List Location) (weight : ℚ),
      (∀ l ∈ validOf locations weight,
        totalScore (availableOf locations) weight l ≠ some maxSafeInteger) →
      findOptimalLocationSimple locations weight
        = findOptimalLocation locations weight) := by
  constructor
  · intro loc weight m g hacc hm hcw hw
    have hle := canAcceptWeight_le hm hacc
    have hgw := getLevelWeight_nonneg g hcw
    obtain ⟨hm0, hm2000, htier0, htier4⟩ := LEVEL_MAX_WEIGHTS_range hm
    simp only [calculateWeightScore, hm]
    rw [if_neg (not_lt.mpr hle)]
    simp only [ne_eq, Option.some.injEq, maxSafeInteger]
    intro hcontra
    have habs : |m - (getLevelWeight g + weight)|
        = m - (getLevelWeight g + weight) := abs_of_nonneg (by linarith)
    have hdiv : (getLevelWeight g + weight) / m ≤ 1 :=
      (div_le_one hm0).mpr hle
    have hwle : weight ≤ 2000 := by linarith
    have hmul : weight * ((parseIntQ loc.level).getD 0) ≤ 2000 * 4 :=
      mul_le_mul hwle htier4 htier0 (by norm_num)
    rw [habs] at hcontra
    linarith [hcontra, hdiv, hmul, hgw, hw, hm2000]
  · intro locations weight hns
    rw [findOptimalLocationSimple_eq_head, findOptimalLocation_eq_head]
    have hsc : scoredSimpleFrom (availableOf locations) weight
        = scoredOf locations weight := by
      rw [scoredOf_eq_map hns]
      unfold scoredSimpleFrom
      refine List.map_congr_left ?_
      intro v hv
      rw [totalScore_eq_simple (mem_validOf.mp hv).2]
    rw [hsc]

/-- C9 (witness): the scorer bound at the empty tier-0 slot, and agreement
of the two engines on the two-tier scenario. -/
theorem claim9_witness :
    calculateWeightScore 100 locA0.level [locA0] ≠ some maxSafeInteger ∧
    findOptimalLocationSimple [locA0, locA1] 100
      = findOptimalLocation [locA0, locA1] 100 :=
  ⟨claim9_theorem.1 locA0 100 2000 [locA0]
      (by norm_num +decide [canAcceptWeight, getLevelWeight,
        LEVEL_MAX_WEIGHTS, locA0])
      (by decide)
      (by intro l hl q hq
          simp only [List.mem_singleton] at hl
          subst hl
          simp only [locA0, Option.some.injEq] at hq
          simp [← hq])
      (by norm_num),
   claim9_theorem.2 [locA0, locA1] 100
      (by intro l hl
          rw [eval_valid_twoTier] at hl
          fin_cases hl
          · rw [eval_score_A0]; norm_num [maxSafeInteger]
          · rw [eval_score_A1]; norm_num [maxSafeInteger])⟩

end Warehouse
